import Mathlib

/-!
# Chat client message synchronisation (`backend/app/static/app.js`)

A shallow embedding of the client-side synchronisation code: the module
globals become one `Client` record that every function takes and returns,
the DOM children of `chatMessages` become a list of `Bubble`s in append
order, and every awaited network round-trip becomes an explicit reply value
handed to the continuation of the suspended call.

Message ids are integers. `renderedIds` is a JavaScript `Set` that is only
ever queried with `has` and grown with `add`, so it is a `Finset Int`.
-/

set_option autoImplicit false

namespace ChatClient

/-! ## Data model -/

/-- One entry of a history response; `role` is `msg.role` as the text that
`classList.add` makes of it. The remaining fields of an entry (`category`,
`ticket_id`, `confidence`, `created_at`) only decide how the bubble looks,
cannot make the rendering throw, and are left out. -/
structure Message where
  id : Int
  role : String
  text : String
deriving DecidableEq

/-- A child appended to `chatMessages`: `server` is the wrapper built by
`renderServerMessage`, `localEcho` the one built by `renderLocalMessage`. -/
inductive Bubble where
  | server (msg : Message)
  | localEcho (role : String) (text : String)
deriving DecidableEq

/-- A request handed to `fetch`. -/
inductive Request where
  | historyAll
  | historyAfter (after_id : Int)
  | postMessage (text : String)
deriving DecidableEq

/-- The module globals of `app.js` together with the parts of the page they
touch. `typingIndicators` counts the `#typingIndicator` elements present. -/
structure Client where
  welcomeRemoved : Bool
  lastMessageId : Int
  renderedIds : Finset Int
  pollPaused : Bool
  inputValue : String
  inputDisabled : Bool
  sendDisabled : Bool
  typingIndicators : Nat
  bubbles : List Bubble
  requests : List Request
deriving DecidableEq

/-- Module state right after the script is loaded (`app.js` lines 31-37, 177). -/
def initial : Client :=
  { welcomeRemoved := false
    lastMessageId := 0
    renderedIds := ∅
    pollPaused := false
    inputValue := ""
    inputDisabled := false
    sendDisabled := false
    typingIndicators := 0
    bubbles := []
    requests := [] }

/-- Outcome of an awaited history fetch: `failed` is a rejected `fetch` or a
rejected `res.json()`, `notOk` a response with `res.ok` false. -/
inductive HistoryReply where
  | failed
  | notOk
  | ok (messages : List Message)
deriving DecidableEq

/-- What `res.json()` yields for the body of a non-success POST response:
`unparsable` is a rejection (replaced by `{}` through `.catch`), `nullBody`
the JSON value `null`, `value detail` any other value: `detail` is `none`
when the `detail` property is absent or falsy, and `some d` when it is truthy
and the template literal converts it to the text `d` (which may be empty, as
for an empty array). -/
inductive ErrBody where
  | unparsable
  | nullBody
  | value (detail : Option String)
deriving DecidableEq

/-- Outcome of the awaited POST of `sendMessage`: `networkError` is a rejected
`fetch`, `notOk` a response with `res.ok` false, `okUnparsable` a success
response whose `res.json()` rejects or yields `null`, `ok` a success response
carrying `reply_text`. -/
inductive PostReply where
  | networkError
  | notOk (statusText : String) (body : ErrBody)
  | okUnparsable
  | ok (reply_text : String)
deriving DecidableEq

/-! ## `String.prototype.trim` -/

/-- The code points ECMAScript counts as WhiteSpace or LineTerminator. -/
def jsIsWhiteSpace (c : Char) : Bool :=
  let n := c.toNat
  n == 0x09 || n == 0x0A || n == 0x0B || n == 0x0C || n == 0x0D || n == 0x20 ||
  n == 0xA0 || n == 0x1680 || (0x2000 ≤ n && n ≤ 0x200A) || n == 0x2028 ||
  n == 0x2029 || n == 0x202F || n == 0x205F || n == 0x3000 || n == 0xFEFF

/-- The method `text.trim()`. All white space code points lie in the basic
plane, so trimming code points and trimming UTF-16 code units agree. -/
def jsTrim (text : String) : String :=
  String.mk (((text.data.dropWhile jsIsWhiteSpace).reverse.dropWhile jsIsWhiteSpace).reverse)

/-! ## Rendering -/

/-- ASCII white space in the sense of the DOM standard. -/
def isAsciiWhitespace (c : Char) : Bool :=
  let n := c.toNat
  n == 0x09 || n == 0x0A || n == 0x0C || n == 0x0D || n == 0x20

/-- Whether `classList.add("message", role)` accepts `role`: the call throws
for the empty string and for a token that contains ASCII white space. -/
def classTokenOk (role : String) : Bool :=
  !role.data.isEmpty && role.data.all (fun c => !isAsciiWhitespace c)

/-- How a call of `renderServerMessage` ends, with the client state it leaves:
`returned` is a normal return, `threw` an exception out of the call. -/
inductive Rendered where
  | returned (s : Client)
  | threw (s : Client)
deriving DecidableEq

/-- The client state a call of `renderServerMessage` leaves behind. -/
def Rendered.state : Rendered → Client
  | Rendered.returned s => s
  | Rendered.threw s => s

/-- The function `removeWelcome` (lines 42-48). -/
def removeWelcome (s : Client) : Client :=
  if !s.welcomeRemoved then { s with welcomeRemoved := true } else s

/-- The function `renderServerMessage` (lines 55-111). The id and the
watermark are recorded and the welcome element removed (lines 57-60) before
`classList.add("message", msg.role)` (line 63), which throws for a role that
is not a class token; the wrapper is appended at line 109 only. -/
def renderServerMessage (s : Client) (msg : Message) : Rendered :=
  if msg.id ∈ s.renderedIds then Rendered.returned s
  else
    let s1 := { s with renderedIds := insert msg.id s.renderedIds }
    let s2 := if msg.id > s1.lastMessageId then { s1 with lastMessageId := msg.id } else s1
    let s3 := removeWelcome s2
    if classTokenOk msg.role then
      Rendered.returned { s3 with bubbles := s3.bubbles ++ [Bubble.server msg] }
    else Rendered.threw s3

/-- The function `renderLocalMessage` (lines 118-139). Every call in the file
passes the role `"user"` or `"bot"`, which `classList.add` accepts. -/
def renderLocalMessage (s : Client) (role text : String) : Client :=
  let s1 := removeWelcome s
  { s1 with bubbles := s1.bubbles ++ [Bubble.localEcho role text] }

/-- The function `showTyping` (lines 142-149). -/
def showTyping (s : Client) : Client :=
  { s with typingIndicators := s.typingIndicators + 1 }

/-- The function `hideTyping` (lines 151-154). -/
def hideTyping (s : Client) : Client :=
  { s with typingIndicators := s.typingIndicators - 1 }

/-! ## The two loops over a history batch -/

/-- The loop `for (const m of messages) renderServerMessage(m)` of
`loadHistory` (lines 168-170) and `pollNewMessages` (lines 190-192), inside
the `try` of its caller: when a call throws, the loop is abandoned and the
`catch` (lines 171-173, 193-195) leaves the state as it is. -/
def ingest (s : Client) : List Message → Client
  | [] => s
  | m :: rest =>
    match renderServerMessage s m with
    | Rendered.returned s1 => ingest s1 rest
    | Rendered.threw s1 => s1

/-- Body of the loop of `syncIds` (lines 263-264). -/
def syncStep (s : Client) (m : Message) : Client :=
  let s1 := { s with renderedIds := insert m.id s.renderedIds }
  if m.id > s1.lastMessageId then { s1 with lastMessageId := m.id } else s1

/-- The loop of `syncIds` (lines 261-265). -/
def ingestSilently (s : Client) (messages : List Message) : Client :=
  messages.foldl syncStep s

/-! ## Asynchronous functions, split at their awaited fetch -/

/-- Records that `fetch` was called with the given request. -/
def issue (s : Client) (r : Request) : Client :=
  { s with requests := s.requests ++ [r] }

/-- The part of `loadHistory` up to its `await fetch` (lines 162-165). -/
def loadHistoryStart (s : Client) : Client :=
  issue s Request.historyAll

/-- The part of `loadHistory` after its `await fetch` (lines 166-173). -/
def loadHistoryResume (s : Client) (r : HistoryReply) : Client :=
  match r with
  | HistoryReply.ok messages => ingest s messages
  | _ => s

/-- The function `loadHistory` run without interruption. -/
def loadHistory (s : Client) (r : HistoryReply) : Client :=
  loadHistoryResume (loadHistoryStart s) r

/-- The part of `pollNewMessages` up to its `await fetch` (lines 180-186):
`none` when the call returns at `if (pollPaused) return`. -/
def pollStart (s : Client) : Option Client :=
  if s.pollPaused then none else some (issue s (Request.historyAfter s.lastMessageId))

/-- The part of `pollNewMessages` after its `await fetch` (lines 187-195). -/
def pollResume (s : Client) (r : HistoryReply) : Client :=
  match r with
  | HistoryReply.ok messages => ingest s messages
  | _ => s

/-- The function `pollNewMessages` run without interruption. -/
def pollNewMessages (s : Client) (r : HistoryReply) : Client :=
  match pollStart s with
  | none => s
  | some s1 => pollResume s1 r

/-- The part of `syncIds` up to its `await fetch` (lines 253-257). -/
def syncIdsStart (s : Client) : Client :=
  issue s (Request.historyAfter s.lastMessageId)

/-- The part of `syncIds` after its `await fetch` (lines 258-268). -/
def syncIdsResume (s : Client) (r : HistoryReply) : Client :=
  match r with
  | HistoryReply.ok messages => ingestSilently s messages
  | _ => s

/-- The function `syncIds` run without interruption. -/
def syncIds (s : Client) (r : HistoryReply) : Client :=
  syncIdsResume (syncIdsStart s) r

/-- The `finally` block of `sendMessage` (lines 240-245). -/
def sendFinally (s : Client) : Client :=
  { s with inputDisabled := false, sendDisabled := false, pollPaused := false }

/-- The part of `sendMessage` up to its `await fetch` (lines 200-218): `none`
when the call returns at `if (!text) return`. -/
def sendStart (s : Client) (text : String) : Option Client :=
  let text := jsTrim text
  if text = "" then none
  else
    let s1 := { s with pollPaused := true }
    let s2 := renderLocalMessage s1 "user" text
    let s3 := { s2 with inputValue := "", inputDisabled := true, sendDisabled := true }
    let s4 := showTyping s3
    some (issue s4 (Request.postMessage text))

/-- The `catch` block of `sendMessage` (lines 236-239). -/
def sendCatch (s : Client) : Client :=
  renderLocalMessage (hideTyping s) "bot" "Bağlantı hatası. Lütfen tekrar deneyin."

/-- The text `err.detail || res.statusText` (line 224). -/
def errorDetail (detail : Option String) (statusText : String) : String :=
  match detail with
  | some d => d
  | none => statusText

/-- The part of `sendMessage` between the POST reply and `await syncIds()`
(lines 220-235). The result is `Sum.inl` when the call is over (the `finally`
block has run), and `Sum.inr` when it is suspended at the fetch of `syncIds`. -/
def sendAfterPost (s : Client) (p : PostReply) : Client ⊕ Client :=
  match p with
  | PostReply.networkError => Sum.inl (sendFinally (sendCatch s))
  | PostReply.notOk statusText body =>
    let s1 := hideTyping s
    match body with
    | ErrBody.nullBody => Sum.inl (sendFinally (sendCatch s1))
    | ErrBody.unparsable =>
      Sum.inl (sendFinally (renderLocalMessage s1 "bot"
        ("Bir hata oluştu: " ++ errorDetail none statusText)))
    | ErrBody.value detail =>
      Sum.inl (sendFinally (renderLocalMessage s1 "bot"
        ("Bir hata oluştu: " ++ errorDetail detail statusText)))
  | PostReply.okUnparsable => Sum.inl (sendFinally (sendCatch (hideTyping s)))
  | PostReply.ok reply_text =>
    let s1 := hideTyping s
    let s2 := renderLocalMessage s1 "bot" reply_text
    Sum.inr (syncIdsStart s2)

/-- The part of `sendMessage` after `await syncIds()` (lines 235, 240-245). -/
def sendAfterSync (s : Client) (r : HistoryReply) : Client :=
  sendFinally (syncIdsResume s r)

/-- The function `sendMessage` run without interruption: `p` is the reply to
the POST and `r` the reply to the history fetch of `syncIds`. -/
def sendMessage (s : Client) (text : String) (p : PostReply) (r : HistoryReply) : Client :=
  match sendStart s text with
  | none => s
  | some s1 =>
    match sendAfterPost s1 p with
    | Sum.inl s2 => s2
    | Sum.inr s2 => sendAfterSync s2 r

/-! ## Runs of the two ingestion paths -/

/-- One call of an ingestion path on a history batch: `ingest` is the
rendering loop, `ingestSilently` the loop of `syncIds`. -/
inductive Call where
  | ingest (batch : List Message)
  | ingestSilently (batch : List Message)
deriving DecidableEq

/-- The batch a call was given. -/
def Call.batch : Call → List Message
  | Call.ingest b => b
  | Call.ingestSilently b => b

/-- Effect of one call on the client. -/
def Call.apply (s : Client) : Call → Client
  | Call.ingest b => ChatClient.ingest s b
  | Call.ingestSilently b => ChatClient.ingestSilently s b

/-- Effect of a sequence of calls, first call first. -/
def run (s : Client) (calls : List Call) : Client :=
  calls.foldl Call.apply s

/-- Ids of the bubbles drawn by `renderServerMessage`, in drawing order. -/
def serverIds : List Bubble → List Int
  | [] => []
  | Bubble.server m :: rest => m.id :: serverIds rest
  | Bubble.localEcho _ _ :: rest => serverIds rest

/-- Messages of a batch that are net-new: the id is not in `rendered` and does
not occur among the `earlier` messages of the same batch. -/
def netNewFrom (rendered : Finset Int) (earlier : List Message) : List Message → List Message
  | [] => []
  | m :: rest =>
    if m.id ∉ rendered ∧ m.id ∉ earlier.map Message.id then
      m :: netNewFrom rendered (earlier ++ [m]) rest
    else netNewFrom rendered (earlier ++ [m]) rest

/-- Net-new messages of a whole batch, in batch order. -/
def netNew (rendered : Finset Int) (batch : List Message) : List Message :=
  netNewFrom rendered [] batch

/-- Whether the first call whose batch contains id `i` is a rendering call. -/
def firstSeenRendered (i : Int) : List Call → Bool
  | [] => false
  | Call.ingest b :: rest =>
    if i ∈ b.map Message.id then true else firstSeenRendered i rest
  | Call.ingestSilently b :: rest =>
    if i ∈ b.map Message.id then false else firstSeenRendered i rest

/-- Whether every message the call hands to `renderServerMessage` has a role
that is a class token; a call of the `syncIds` loop draws nothing. -/
def Call.rolesOk : Call → Bool
  | Call.ingest b => b.all (fun m => classTokenOk m.role)
  | Call.ingestSilently _ => true

/-- Ids of all messages handed to the calls, in order. -/
def ingestedIds : List Call → List Int
  | [] => []
  | c :: rest => c.batch.map Message.id ++ ingestedIds rest

/-- Every tracked id is at most the watermark. -/
def Tracked (s : Client) : Prop :=
  ∀ i ∈ s.renderedIds, i ≤ s.lastMessageId

/-- Drawn ids are pairwise distinct and all tracked. -/
def Drawn (s : Client) : Prop :=
  (serverIds s.bubbles).Nodup ∧ ∀ i ∈ serverIds s.bubbles, i ∈ s.renderedIds

/-! ## Interleaving of the asynchronous calls -/

/-- An asynchronous call suspended at an awaited fetch. -/
inductive Pending where
  | loadHistory
  | poll
  | sendPost
  | sendSync
deriving DecidableEq

/-- The page: the client state, whether the `DOMContentLoaded` handler has
started, whether `setInterval` has been called, and the suspended calls. -/
structure Page where
  client : Client
  loaded : Bool
  timerStarted : Bool
  pending : List Pending
deriving DecidableEq

/-- The page before any event. -/
def Page.start : Page :=
  { client := initial, loaded := false, timerStarted := false, pending := [] }

/-- What the event loop can deliver: the `DOMContentLoaded` event, a timer
tick, a call of `sendMessage` from a listener, and the reply to the fetch the
`k`-th suspended call is awaiting. -/
inductive Event where
  | domContentLoaded
  | tick
  | send (text : String)
  | historyReply (k : Nat) (r : HistoryReply)
  | postReply (k : Nat) (p : PostReply)
deriving DecidableEq

/-- Whether a call of `sendMessage` is between its start and its `finally`. -/
def Page.sendInFlight (σ : Page) : Bool :=
  σ.pending.contains Pending.sendPost || σ.pending.contains Pending.sendSync

/-- One turn of the event loop, run up to the next awaited fetch; `none` when
the event cannot occur in this page. -/
def step (σ : Page) : Event → Option Page
  | Event.domContentLoaded =>
    if σ.loaded then none
    else some { σ with client := loadHistoryStart σ.client, loaded := true,
                       pending := σ.pending ++ [Pending.loadHistory] }
  | Event.tick =>
    if !σ.timerStarted then none
    else
      match pollStart σ.client with
      | none => some σ
      | some c => some { σ with client := c, pending := σ.pending ++ [Pending.poll] }
  | Event.send text =>
    match sendStart σ.client text with
    | none => some σ
    | some c => some { σ with client := c, pending := σ.pending ++ [Pending.sendPost] }
  | Event.historyReply k r =>
    match σ.pending.get? k with
    | some Pending.loadHistory =>
      some { σ with client := loadHistoryResume σ.client r, timerStarted := true,
                    pending := σ.pending.eraseIdx k }
    | some Pending.poll =>
      some { σ with client := pollResume σ.client r, pending := σ.pending.eraseIdx k }
    | some Pending.sendSync =>
      some { σ with client := sendAfterSync σ.client r, pending := σ.pending.eraseIdx k }
    | _ => none
  | Event.postReply k p =>
    match σ.pending.get? k with
    | some Pending.sendPost =>
      match sendAfterPost σ.client p with
      | Sum.inl c => some { σ with client := c, pending := σ.pending.eraseIdx k }
      | Sum.inr c => some { σ with client := c, pending := σ.pending.set k Pending.sendSync }
    | _ => none

/-- A sequence of turns of the event loop, first event first. -/
def runEvents (σ : Page) : List Event → Option Page
  | [] => some σ
  | e :: rest =>
    match step σ e with
    | none => none
    | some σ1 => runEvents σ1 rest

/-! ## Lemmas on single steps -/

theorem serverIds_append (l1 l2 : List Bubble) :
    serverIds (l1 ++ l2) = serverIds l1 ++ serverIds l2 := by
  induction l1 with
  | nil => rfl
  | cons b t ih => cases b <;> simp [serverIds, ih]

theorem removeWelcome_eq (s : Client) :
    removeWelcome s = { s with welcomeRemoved := true } := by
  unfold removeWelcome
  cases s with
  | mk w l r pp iv idis sdis ty bs rq =>
    cases w <;> rfl

theorem ingestSilently_cons (s : Client) (m : Message) (b : List Message) :
    ingestSilently s (m :: b) = ingestSilently (syncStep s m) b := rfl

theorem run_cons (s : Client) (c : Call) (calls : List Call) :
    run s (c :: calls) = run (c.apply s) calls := rfl

theorem run_append (s : Client) (calls1 calls2 : List Call) :
    run s (calls1 ++ calls2) = run (run s calls1) calls2 := by
  simp [run, List.foldl_append]

theorem renderServerMessage_of_mem {s : Client} {m : Message} (h : m.id ∈ s.renderedIds) :
    renderServerMessage s m = Rendered.returned s := by
  simp [renderServerMessage, h]

theorem renderServerMessage_of_not_mem {s : Client} {m : Message}
    (h : m.id ∉ s.renderedIds) :
    renderServerMessage s m =
      if classTokenOk m.role = true then
        Rendered.returned
          { s with renderedIds := insert m.id s.renderedIds
                   lastMessageId := max s.lastMessageId m.id
                   welcomeRemoved := true
                   bubbles := s.bubbles ++ [Bubble.server m] }
      else
        Rendered.threw
          { s with renderedIds := insert m.id s.renderedIds
                   lastMessageId := max s.lastMessageId m.id
                   welcomeRemoved := true } := by
  simp only [renderServerMessage, h, if_false, removeWelcome_eq]
  by_cases hgt : m.id > s.lastMessageId
  · simp only [hgt, if_true, max_eq_right (le_of_lt hgt)]
  · simp only [hgt, if_false, max_eq_left (not_lt.mp hgt)]

theorem renderServerMessage_state_renderedIds (s : Client) (m : Message) :
    (renderServerMessage s m).state.renderedIds = insert m.id s.renderedIds := by
  by_cases h : m.id ∈ s.renderedIds
  · simp [renderServerMessage_of_mem h, Rendered.state, h]
  · rw [renderServerMessage_of_not_mem h]
    split_ifs <;> rfl

theorem renderServerMessage_state_lastMessageId (s : Client) (m : Message) :
    (renderServerMessage s m).state.lastMessageId =
      if m.id ∈ s.renderedIds then s.lastMessageId else max s.lastMessageId m.id := by
  by_cases h : m.id ∈ s.renderedIds
  · simp [renderServerMessage_of_mem h, Rendered.state, h]
  · rw [renderServerMessage_of_not_mem h, if_neg h]
    split_ifs <;> rfl

theorem renderServerMessage_state_bubbles (s : Client) (m : Message) :
    (renderServerMessage s m).state.bubbles =
      s.bubbles ++
        (if m.id ∉ s.renderedIds ∧ classTokenOk m.role = true then [Bubble.server m]
         else []) := by
  by_cases h : m.id ∈ s.renderedIds
  · simp [renderServerMessage_of_mem h, Rendered.state, h]
  · rw [renderServerMessage_of_not_mem h]
    by_cases hr : classTokenOk m.role = true
    · simp [hr, h, Rendered.state]
    · simp [hr, h, Rendered.state]

theorem renderServerMessage_returned {s : Client} {m : Message}
    (hr : classTokenOk m.role = true) :
    renderServerMessage s m = Rendered.returned (renderServerMessage s m).state := by
  by_cases h : m.id ∈ s.renderedIds
  · simp [renderServerMessage_of_mem h, Rendered.state]
  · rw [renderServerMessage_of_not_mem h]
    simp [hr, Rendered.state]

theorem syncStep_renderedIds (s : Client) (m : Message) :
    (syncStep s m).renderedIds = insert m.id s.renderedIds := by
  simp only [syncStep]
  split_ifs <;> rfl

theorem syncStep_lastMessageId (s : Client) (m : Message) :
    (syncStep s m).lastMessageId = max s.lastMessageId m.id := by
  simp only [syncStep]
  split_ifs with h1
  · exact (max_eq_right (le_of_lt h1)).symm
  · exact (max_eq_left (not_lt.mp h1)).symm

theorem syncStep_bubbles (s : Client) (m : Message) :
    (syncStep s m).bubbles = s.bubbles := by
  simp only [syncStep]
  split_ifs <;> rfl

/-! ## The rendering loop, with and without a throw -/

theorem ingest_cons_cases (s : Client) (m : Message) (b : List Message) :
    ingest s (m :: b) = ingest (renderServerMessage s m).state b ∨
      ingest s (m :: b) = (renderServerMessage s m).state := by
  cases h : renderServerMessage s m with
  | returned s1 => left; simp [ingest, h, Rendered.state]
  | threw s1 => right; simp [ingest, h, Rendered.state]

theorem ingest_cons_of_ok (s : Client) (m : Message) (b : List Message)
    (hr : classTokenOk m.role = true) :
    ingest s (m :: b) = ingest (renderServerMessage s m).state b := by
  have h := renderServerMessage_returned (s := s) hr
  generalize (renderServerMessage s m).state = s1 at h
  simp [ingest, h]

theorem ingest_cons_of_mem (s : Client) (m : Message) (b : List Message)
    (h : m.id ∈ s.renderedIds) : ingest s (m :: b) = ingest s b := by
  simp [ingest, renderServerMessage_of_mem h]

theorem ingest_preserves (P : Client → Prop) (b : List Message)
    (hstep : ∀ s m, m ∈ b → P s → P (renderServerMessage s m).state)
    (s : Client) (h : P s) : P (ingest s b) := by
  induction b generalizing s with
  | nil => exact h
  | cons m b ih =>
    have h1 := hstep s m (List.mem_cons_self _ _) h
    have ih1 := ih (fun s x hx hs => hstep s x (List.mem_cons_of_mem _ hx) hs)
    rcases ingest_cons_cases s m b with e | e
    · rw [e]; exact ih1 _ h1
    · rw [e]; exact h1

/-! ## What holds of every batch -/

theorem ingest_lastMessageId_le (s : Client) (b : List Message) :
    s.lastMessageId ≤ (ingest s b).lastMessageId := by
  refine ingest_preserves (fun x => s.lastMessageId ≤ x.lastMessageId) b ?_ s (le_refl _)
  intro x m _ hx
  refine le_trans hx ?_
  rw [renderServerMessage_state_lastMessageId]
  split_ifs
  · exact le_refl _
  · exact le_max_left _ _

theorem ingest_renderedIds_subset (s : Client) (b : List Message) :
    ∀ i ∈ (ingest s b).renderedIds, i ∈ s.renderedIds ∨ i ∈ b.map Message.id := by
  refine ingest_preserves
    (fun x => ∀ i ∈ x.renderedIds, i ∈ s.renderedIds ∨ i ∈ b.map Message.id) b ?_ s
    (fun i hi => Or.inl hi)
  intro x m hm hx i hi
  rw [renderServerMessage_state_renderedIds, Finset.mem_insert] at hi
  rcases hi with rfl | hi
  · exact Or.inr (List.mem_map_of_mem _ hm)
  · exact hx i hi

theorem ingestSilently_renderedIds (s : Client) (b : List Message) :
    (ingestSilently s b).renderedIds = s.renderedIds ∪ (b.map Message.id).toFinset := by
  induction b generalizing s with
  | nil => simp [ingestSilently]
  | cons m b ih =>
    rw [ingestSilently_cons, ih, syncStep_renderedIds]
    ext i
    simp only [Finset.mem_union, Finset.mem_insert, List.mem_toFinset, List.map_cons,
      List.mem_cons]
    tauto

theorem ingestSilently_bubbles (s : Client) (b : List Message) :
    (ingestSilently s b).bubbles = s.bubbles := by
  induction b generalizing s with
  | nil => rfl
  | cons m b ih => rw [ingestSilently_cons, ih, syncStep_bubbles]

theorem ingestSilently_lastMessageId (s : Client) (b : List Message) :
    (ingestSilently s b).lastMessageId = (b.map Message.id).foldl max s.lastMessageId := by
  induction b generalizing s with
  | nil => rfl
  | cons m b ih => rw [ingestSilently_cons, ih, syncStep_lastMessageId]; rfl

theorem ingestSilently_lastMessageId_le (s : Client) (b : List Message) :
    s.lastMessageId ≤ (ingestSilently s b).lastMessageId := by
  induction b generalizing s with
  | nil => exact le_refl _
  | cons m b ih =>
    rw [ingestSilently_cons]
    refine le_trans ?_ (ih _)
    rw [syncStep_lastMessageId]
    exact le_max_left _ _

theorem apply_lastMessageId_le (s : Client) (c : Call) :
    s.lastMessageId ≤ (c.apply s).lastMessageId := by
  cases c with
  | ingest b => exact ingest_lastMessageId_le s b
  | ingestSilently b => exact ingestSilently_lastMessageId_le s b

theorem apply_renderedIds_subset (s : Client) (c : Call) :
    ∀ i ∈ (c.apply s).renderedIds, i ∈ s.renderedIds ∨ i ∈ c.batch.map Message.id := by
  cases c with
  | ingest b => exact ingest_renderedIds_subset s b
  | ingestSilently b =>
    intro i hi
    simp only [Call.apply, ingestSilently_renderedIds, Finset.mem_union,
      List.mem_toFinset] at hi
    exact hi

theorem run_renderedIds_subset (s : Client) (calls : List Call) :
    ∀ i ∈ (run s calls).renderedIds, i ∈ s.renderedIds ∨ i ∈ ingestedIds calls := by
  induction calls generalizing s with
  | nil => intro i hi; exact Or.inl hi
  | cons c calls ih =>
    intro i hi
    rw [run_cons] at hi
    simp only [ingestedIds, List.mem_append]
    rcases ih _ i hi with h | h
    · rcases apply_renderedIds_subset s c i h with h1 | h1
      · exact Or.inl h1
      · exact Or.inr (Or.inl h1)
    · exact Or.inr (Or.inr h)

/-! ## Tracked ids stay below the watermark -/

theorem tracked_initial : Tracked initial := by
  intro i hi
  simp [initial] at hi

theorem tracked_renderServerMessage {s : Client} (h : Tracked s) (m : Message) :
    Tracked (renderServerMessage s m).state := by
  intro i hi
  rw [renderServerMessage_state_renderedIds, Finset.mem_insert] at hi
  rw [renderServerMessage_state_lastMessageId]
  by_cases hm : m.id ∈ s.renderedIds
  · rw [if_pos hm]
    rcases hi with rfl | hi
    · exact h _ hm
    · exact h i hi
  · rw [if_neg hm]
    rcases hi with rfl | hi
    · exact le_max_right _ _
    · exact le_trans (h i hi) (le_max_left _ _)

theorem tracked_syncStep {s : Client} (h : Tracked s) (m : Message) :
    Tracked (syncStep s m) := by
  intro i hi
  rw [syncStep_renderedIds, Finset.mem_insert] at hi
  rw [syncStep_lastMessageId]
  rcases hi with rfl | hi
  · exact le_max_right _ _
  · exact le_trans (h i hi) (le_max_left _ _)

theorem tracked_ingest {s : Client} (h : Tracked s) (b : List Message) :
    Tracked (ingest s b) :=
  ingest_preserves Tracked b (fun _ m _ hx => tracked_renderServerMessage hx m) s h

theorem tracked_ingestSilently {s : Client} (h : Tracked s) (b : List Message) :
    Tracked (ingestSilently s b) := by
  induction b generalizing s with
  | nil => exact h
  | cons m b ih => rw [ingestSilently_cons]; exact ih (tracked_syncStep h m)

theorem tracked_apply {s : Client} (h : Tracked s) (c : Call) : Tracked (c.apply s) := by
  cases c with
  | ingest b => exact tracked_ingest h b
  | ingestSilently b => exact tracked_ingestSilently h b

theorem tracked_run {s : Client} (h : Tracked s) (calls : List Call) :
    Tracked (run s calls) := by
  induction calls generalizing s with
  | nil => exact h
  | cons c calls ih => rw [run_cons]; exact ih (tracked_apply h c)

/-! ## Drawn ids stay distinct -/

theorem drawn_initial : Drawn initial := by
  simp [Drawn, initial, serverIds]

theorem drawn_renderServerMessage {s : Client} (h : Drawn s) (m : Message) :
    Drawn (renderServerMessage s m).state := by
  unfold Drawn
  rw [renderServerMessage_state_bubbles, renderServerMessage_state_renderedIds,
    serverIds_append]
  by_cases hc : m.id ∉ s.renderedIds ∧ classTokenOk m.role = true
  · rw [if_pos hc]
    have hnew : m.id ∉ serverIds s.bubbles := fun hx => hc.1 (h.2 _ hx)
    constructor
    · simp only [serverIds]
      rw [List.nodup_append]
      refine ⟨h.1, List.nodup_singleton _, ?_⟩
      intro a ha hb
      rw [List.mem_singleton] at hb
      exact hnew (hb ▸ ha)
    · intro i hi
      simp only [serverIds, List.mem_append, List.mem_singleton] at hi
      rw [Finset.mem_insert]
      rcases hi with hi | hi
      · exact Or.inr (h.2 i hi)
      · exact Or.inl hi
  · rw [if_neg hc]
    simp only [serverIds, List.append_nil]
    exact ⟨h.1, fun i hi => Finset.mem_insert_of_mem (h.2 i hi)⟩

theorem drawn_syncStep {s : Client} (h : Drawn s) (m : Message) : Drawn (syncStep s m) := by
  unfold Drawn
  rw [syncStep_bubbles, syncStep_renderedIds]
  exact ⟨h.1, fun i hi => Finset.mem_insert_of_mem (h.2 i hi)⟩

theorem drawn_ingest {s : Client} (h : Drawn s) (b : List Message) : Drawn (ingest s b) :=
  ingest_preserves Drawn b (fun _ m _ hx => drawn_renderServerMessage hx m) s h

theorem drawn_ingestSilently {s : Client} (h : Drawn s) (b : List Message) :
    Drawn (ingestSilently s b) := by
  induction b generalizing s with
  | nil => exact h
  | cons m b ih => rw [ingestSilently_cons]; exact ih (drawn_syncStep h m)

theorem drawn_run {s : Client} (h : Drawn s) (calls : List Call) : Drawn (run s calls) := by
  induction calls generalizing s with
  | nil => exact h
  | cons c calls ih =>
    rw [run_cons]
    apply ih
    cases c with
    | ingest b => exact drawn_ingest h b
    | ingestSilently b => exact drawn_ingestSilently h b

/-! ## Batches whose roles are all class tokens -/

theorem ingest_renderedIds_of_rolesOk (s : Client) (b : List Message)
    (hb : ∀ m ∈ b, classTokenOk m.role = true) :
    (ingest s b).renderedIds = s.renderedIds ∪ (b.map Message.id).toFinset := by
  induction b generalizing s with
  | nil => simp [ingest]
  | cons m b ih =>
    rw [ingest_cons_of_ok s m b (hb m (List.mem_cons_self _ _)),
      ih _ (fun x hx => hb x (List.mem_cons_of_mem _ hx)), renderServerMessage_state_renderedIds]
    ext i
    simp only [Finset.mem_union, Finset.mem_insert, List.mem_toFinset, List.map_cons,
      List.mem_cons]
    tauto

theorem count_renderServerMessage_of_ok (s : Client) (m : Message) (i : Int)
    (hr : classTokenOk m.role = true) :
    (serverIds (renderServerMessage s m).state.bubbles).count i =
      (serverIds s.bubbles).count i + (if i ∉ s.renderedIds ∧ i = m.id then 1 else 0) := by
  rw [renderServerMessage_state_bubbles, serverIds_append, List.count_append]
  by_cases hm : m.id ∈ s.renderedIds
  · have : ¬ (i ∉ s.renderedIds ∧ i = m.id) := by
      rintro ⟨h1, rfl⟩; exact h1 hm
    simp [hm, this, serverIds]
  · by_cases hi : i = m.id
    · subst hi
      simp [hm, hr, serverIds]
    · have h2 : ¬ (i ∉ s.renderedIds ∧ i = m.id) := fun h => hi h.2
      have h3 : ¬ (m.id = i) := fun h => hi h.symm
      simp [hm, hr, h2, serverIds, List.count_cons, h3]

theorem count_ingest_of_rolesOk (s : Client) (b : List Message) (i : Int)
    (hb : ∀ m ∈ b, classTokenOk m.role = true) :
    (serverIds (ingest s b).bubbles).count i =
      (serverIds s.bubbles).count i +
        (if i ∉ s.renderedIds ∧ i ∈ b.map Message.id then 1 else 0) := by
  induction b generalizing s with
  | nil => simp [ingest]
  | cons m b ih =>
    have hm := hb m (List.mem_cons_self _ _)
    rw [ingest_cons_of_ok s m b hm, ih _ (fun x hx => hb x (List.mem_cons_of_mem _ hx)),
      count_renderServerMessage_of_ok s m i hm, renderServerMessage_state_renderedIds]
    by_cases h1 : i ∈ s.renderedIds
    · simp [h1]
    · by_cases h2 : i = m.id
      · simp [h1, h2]
      · simp [h1, h2]

theorem apply_renderedIds_of_rolesOk (s : Client) (c : Call) (hc : c.rolesOk = true) :
    (c.apply s).renderedIds = s.renderedIds ∪ (c.batch.map Message.id).toFinset := by
  cases c with
  | ingest b =>
    simp only [Call.rolesOk, List.all_eq_true] at hc
    exact ingest_renderedIds_of_rolesOk s b hc
  | ingestSilently b => exact ingestSilently_renderedIds s b

theorem run_renderedIds_of_rolesOk (s : Client) (calls : List Call)
    (hc : calls.all Call.rolesOk = true) :
    (run s calls).renderedIds = s.renderedIds ∪ (ingestedIds calls).toFinset := by
  induction calls generalizing s with
  | nil => simp [run, ingestedIds]
  | cons c calls ih =>
    simp only [List.all_cons, Bool.and_eq_true] at hc
    rw [run_cons, ih _ hc.2, apply_renderedIds_of_rolesOk s c hc.1]
    ext i
    simp only [ingestedIds, Finset.mem_union, List.mem_toFinset, List.mem_append]
    tauto

theorem count_apply_of_rolesOk (s : Client) (c : Call) (i : Int) (hc : c.rolesOk = true) :
    (serverIds (c.apply s).bubbles).count i =
      (serverIds s.bubbles).count i +
        (if i ∉ s.renderedIds ∧ firstSeenRendered i [c] = true then 1 else 0) := by
  cases c with
  | ingest b =>
    simp only [Call.rolesOk, List.all_eq_true] at hc
    simp only [Call.apply, count_ingest_of_rolesOk s b i hc, firstSeenRendered]
    by_cases h : i ∈ b.map Message.id <;> simp [h]
  | ingestSilently b =>
    simp only [Call.apply, ingestSilently_bubbles, firstSeenRendered]
    by_cases h : i ∈ b.map Message.id <;> simp [h]

theorem count_run_of_rolesOk (s : Client) (calls : List Call) (i : Int)
    (hc : calls.all Call.rolesOk = true) :
    (serverIds (run s calls).bubbles).count i =
      (serverIds s.bubbles).count i +
        (if i ∉ s.renderedIds ∧ firstSeenRendered i calls = true then 1 else 0) := by
  induction calls generalizing s with
  | nil => simp [run, firstSeenRendered]
  | cons c calls ih =>
    simp only [List.all_cons, Bool.and_eq_true] at hc
    rw [run_cons, ih _ hc.2, count_apply_of_rolesOk s c i hc.1,
      apply_renderedIds_of_rolesOk s c hc.1]
    by_cases h1 : i ∈ s.renderedIds
    · simp [h1]
    · cases c with
      | ingest b =>
        by_cases h2 : i ∈ b.map Message.id
        · simp [h1, h2, firstSeenRendered, Call.batch]
        · simp [h1, h2, firstSeenRendered, Call.batch]
      | ingestSilently b =>
        by_cases h2 : i ∈ b.map Message.id
        · simp [h1, h2, firstSeenRendered, Call.batch]
        · simp [h1, h2, firstSeenRendered, Call.batch]

theorem ingest_bubbles_of_rolesOk (R : Finset Int) (earlier : List Message) (s : Client)
    (b : List Message) (hs : s.renderedIds = R ∪ (earlier.map Message.id).toFinset)
    (hb : ∀ m ∈ b, classTokenOk m.role = true) :
    (ingest s b).bubbles = s.bubbles ++ (netNewFrom R earlier b).map Bubble.server := by
  induction b generalizing s earlier with
  | nil => simp [ingest, netNewFrom]
  | cons m b ih =>
    have hr := hb m (List.mem_cons_self _ _)
    have hs1 : (renderServerMessage s m).state.renderedIds =
        R ∪ ((earlier ++ [m]).map Message.id).toFinset := by
      rw [renderServerMessage_state_renderedIds, hs]
      ext i
      simp only [Finset.mem_union, Finset.mem_insert, List.mem_toFinset, List.map_append,
        List.mem_append, List.map_cons, List.map_nil, List.mem_singleton]
      tauto
    have hmem : m.id ∈ s.renderedIds ↔ ¬ (m.id ∉ R ∧ m.id ∉ earlier.map Message.id) := by
      rw [hs, Finset.mem_union, List.mem_toFinset]
      tauto
    rw [ingest_cons_of_ok s m b hr,
      ih (earlier ++ [m]) _ hs1 (fun x hx => hb x (List.mem_cons_of_mem _ hx)),
      renderServerMessage_state_bubbles]
    by_cases hm : m.id ∈ s.renderedIds
    · have hn := hmem.mp hm
      have hc : ¬ (m.id ∉ s.renderedIds ∧ classTokenOk m.role = true) := fun h => h.1 hm
      rw [if_neg hc]
      simp only [netNewFrom]
      rw [if_neg hn]
      simp
    · have hn : m.id ∉ R ∧ m.id ∉ earlier.map Message.id := by
        by_contra hc
        exact hm (hmem.mpr hc)
      rw [if_pos ⟨hm, hr⟩]
      simp only [netNewFrom]
      rw [if_pos hn]
      simp

theorem track_agree_of_rolesOk (s1 s2 : Client) (b : List Message) (h : Tracked s1)
    (hr : s1.renderedIds = s2.renderedIds) (hl : s1.lastMessageId = s2.lastMessageId)
    (hb : ∀ m ∈ b, classTokenOk m.role = true) :
    (ingest s1 b).renderedIds = (ingestSilently s2 b).renderedIds ∧
      (ingest s1 b).lastMessageId = (ingestSilently s2 b).lastMessageId := by
  induction b generalizing s1 s2 with
  | nil => exact ⟨hr, hl⟩
  | cons m b ih =>
    rw [ingest_cons_of_ok s1 m b (hb m (List.mem_cons_self _ _)), ingestSilently_cons]
    apply ih _ _ (tracked_renderServerMessage h m)
    · rw [renderServerMessage_state_renderedIds, syncStep_renderedIds, hr]
    · rw [renderServerMessage_state_lastMessageId, syncStep_lastMessageId, ← hl]
      split_ifs with hm
      · exact (max_eq_left (h _ hm)).symm
      · rfl
    · exact fun x hx => hb x (List.mem_cons_of_mem _ hx)

theorem watermark_bounds_ingested_of_rolesOk (calls : List Call)
    (hc : calls.all Call.rolesOk = true) :
    ∀ i ∈ ingestedIds calls, i ≤ (run initial calls).lastMessageId := by
  intro i hi
  apply tracked_run tracked_initial calls i
  rw [run_renderedIds_of_rolesOk initial calls hc]
  simp only [Finset.mem_union, List.mem_toFinset]
  exact Or.inr hi

theorem run_lastMessageId_le (s : Client) (calls : List Call) (c : Call) :
    (run s calls).lastMessageId ≤ (run s (calls ++ [c])).lastMessageId := by
  rw [run_append]
  exact apply_lastMessageId_le _ c

/-! ## Lemmas on `sendMessage` -/

theorem sendMessage_ok_eq (s : Client) (text reply : String) (B : List Message)
    (h : jsTrim text ≠ "") :
    sendMessage s text (PostReply.ok reply) (HistoryReply.ok B) =
      sendFinally (ingestSilently
        { welcomeRemoved := true
          lastMessageId := s.lastMessageId
          renderedIds := s.renderedIds
          pollPaused := true
          inputValue := ""
          inputDisabled := true
          sendDisabled := true
          typingIndicators := s.typingIndicators + 1 - 1
          bubbles := s.bubbles ++ [Bubble.localEcho "user" (jsTrim text)] ++
            [Bubble.localEcho "bot" reply]
          requests := s.requests ++ [Request.postMessage (jsTrim text)] ++
            [Request.historyAfter s.lastMessageId] } B) := by
  simp only [sendMessage, sendStart, h, if_false, sendAfterPost, sendAfterSync, syncIdsResume,
    syncIdsStart, renderLocalMessage, removeWelcome_eq, hideTyping, showTyping, issue]

/-! ## The pause flag at the entry of a poll -/

theorem tick_while_paused (σ : Page) (ht : σ.timerStarted = true)
    (hp : σ.client.pollPaused = true) : step σ Event.tick = some σ := by
  simp [step, pollStart, ht, hp]

/-! ## The claims -/

/-- Claim C1: starting from the initial state, whatever sequence of batches is
fed through the rendering loop and the silent loop, no message id has more
than one bubble drawn by `renderServerMessage` over the whole run. -/
theorem no_id_drawn_twice (calls : List Call) (i : Int) :
    (serverIds (run initial calls).bubbles).count i ≤ 1 :=
  List.nodup_iff_count_le_one.mp (drawn_run drawn_initial calls).1 i

/-- Claim C2: when the id of a message is already in `renderedIds`,
`renderServerMessage` returns normally with the state it was given (no bubble
is drawn, `lastMessageId` and `renderedIds` keep their values), and so does
the rendering loop on a batch made only of such ids. -/
theorem rendered_id_is_skipped (s : Client) (msg : Message) (batch : List Message)
    (hmsg : msg.id ∈ s.renderedIds) (hbatch : ∀ m ∈ batch, m.id ∈ s.renderedIds) :
    renderServerMessage s msg = Rendered.returned s ∧ ingest s batch = s := by
  refine ⟨renderServerMessage_of_mem hmsg, ?_⟩
  induction batch with
  | nil => rfl
  | cons m b ih =>
    rw [ingest_cons_of_mem s m b (hbatch m (List.mem_cons_self _ _))]
    exact ih (fun x hx => hbatch x (List.mem_cons_of_mem _ hx))

theorem rendered_id_is_skipped_witness :
    ((⟨2, "bot", "b"⟩ : Message).id ∈
        (ingest initial [⟨1, "user", "a"⟩, ⟨2, "bot", "b"⟩]).renderedIds ∧
      ∀ m ∈ [(⟨2, "", "x"⟩ : Message), ⟨1, "user", "y"⟩, ⟨2, "bot", "z"⟩],
        m.id ∈ (ingest initial [⟨1, "user", "a"⟩, ⟨2, "bot", "b"⟩]).renderedIds) ∧
    (renderServerMessage (ingest initial [⟨1, "user", "a"⟩, ⟨2, "bot", "b"⟩]) ⟨2, "bot", "b"⟩ =
        Rendered.returned (ingest initial [⟨1, "user", "a"⟩, ⟨2, "bot", "b"⟩]) ∧
      ingest (ingest initial [⟨1, "user", "a"⟩, ⟨2, "bot", "b"⟩])
          [⟨2, "", "x"⟩, ⟨1, "user", "y"⟩, ⟨2, "bot", "z"⟩] =
        ingest initial [⟨1, "user", "a"⟩, ⟨2, "bot", "b"⟩]) :=
  ⟨⟨by decide, by decide⟩,
    rendered_id_is_skipped (ingest initial [⟨1, "user", "a"⟩, ⟨2, "bot", "b"⟩]) ⟨2, "bot", "b"⟩
      [⟨2, "", "x"⟩, ⟨1, "user", "y"⟩, ⟨2, "bot", "z"⟩] (by decide) (by decide)⟩

/-- Claim C3 fails on the code: in the batch with ids 1 and 9 the role of
message 1 contains a space, `classList.add` throws after id 1 is recorded, the
loop is abandoned, and `lastMessageId` ends at 1 although the ingested batch
contains id 9. -/
theorem abandoned_batch_outruns_watermark :
    (9 : Int) ∈ ingestedIds [Call.ingest [⟨1, "bot admin", "a"⟩, ⟨9, "bot", "b"⟩]] ∧
      renderServerMessage initial ⟨1, "bot admin", "a"⟩ =
        Rendered.threw { initial with renderedIds := {1}, lastMessageId := 1,
                                      welcomeRemoved := true } ∧
      (run initial [Call.ingest [⟨1, "bot admin", "a"⟩, ⟨9, "bot", "b"⟩]]).lastMessageId = 1 ∧
      (run initial [Call.ingest [⟨1, "bot admin", "a"⟩, ⟨9, "bot", "b"⟩]]).renderedIds = {1} ∧
      (run initial [Call.ingest [⟨1, "bot admin", "a"⟩, ⟨9, "bot", "b"⟩]]).bubbles = [] := by
  refine ⟨?_, ?_, ?_, ?_, ?_⟩ <;> decide

/-- Claim C4 fails on the code: for the fresh batch with ids 1, 3, 2 whose
first message has the empty role, `classList.add` throws after id 1 is
recorded; no bubble is drawn for any of the three net-new messages and only
id 1 is tracked. -/
theorem invalid_role_abandons_batch :
    netNew initial.renderedIds [⟨1, "", "one"⟩, ⟨3, "bot", "three"⟩, ⟨2, "user", "two"⟩] =
        [⟨1, "", "one"⟩, ⟨3, "bot", "three"⟩, ⟨2, "user", "two"⟩] ∧
      (ingest initial [⟨1, "", "one"⟩, ⟨3, "bot", "three"⟩, ⟨2, "user", "two"⟩]).bubbles = [] ∧
      (ingest initial [⟨1, "", "one"⟩, ⟨3, "bot", "three"⟩, ⟨2, "user", "two"⟩]).renderedIds
        = {1} ∧
      (ingest initial [⟨1, "", "one"⟩, ⟨3, "bot", "three"⟩, ⟨2, "user", "two"⟩]).lastMessageId
        = 1 := by
  refine ⟨?_, ?_, ?_, ?_⟩ <;> decide

/-- Claim C5 fails on the code: from the initial state, on the batch with ids
1 and 3 whose first message has the empty role, the rendering loop is
abandoned after id 1 and leaves the pair ({1}, 1), while the loop of `syncIds`
leaves ({1, 3}, 3). -/
theorem rendering_path_stops_where_silent_path_goes_on :
    ((ingest (run initial []) [⟨1, "", "a"⟩, ⟨3, "bot", "b"⟩]).renderedIds,
        (ingest (run initial []) [⟨1, "", "a"⟩, ⟨3, "bot", "b"⟩]).lastMessageId) =
      (({1} : Finset Int), (1 : Int)) ∧
    ((ingestSilently (run initial []) [⟨1, "", "a"⟩, ⟨3, "bot", "b"⟩]).renderedIds,
        (ingestSilently (run initial []) [⟨1, "", "a"⟩, ⟨3, "bot", "b"⟩]).lastMessageId) =
      (({1, 3} : Finset Int), (3 : Int)) := by
  refine ⟨?_, ?_⟩ <;> decide

/-- Claim C6: a send whose text is non-empty after trimming, whose POST
succeeds with `reply_text` and whose reconciliation fetch returns batch `B`
appends exactly two bubbles, both local (the trimmed text as user, the reply
as bot), draws no server bubble for `B`, and ends with `renderedIds` equal to
the old set united with the ids of `B` and `lastMessageId` equal to the
maximum of the old value and the ids of `B`. -/
theorem send_success_reconciles_silently (s : Client) (text reply : String)
    (B : List Message) (h : jsTrim text ≠ "") :
    (sendMessage s text (PostReply.ok reply) (HistoryReply.ok B)).bubbles =
        s.bubbles ++ [Bubble.localEcho "user" (jsTrim text), Bubble.localEcho "bot" reply] ∧
      serverIds (sendMessage s text (PostReply.ok reply) (HistoryReply.ok B)).bubbles =
        serverIds s.bubbles ∧
      (sendMessage s text (PostReply.ok reply) (HistoryReply.ok B)).renderedIds =
        s.renderedIds ∪ (B.map Message.id).toFinset ∧
      (sendMessage s text (PostReply.ok reply) (HistoryReply.ok B)).lastMessageId =
        (B.map Message.id).foldl max s.lastMessageId := by
  rw [sendMessage_ok_eq s text reply B h]
  refine ⟨?_, ?_, ?_, ?_⟩
  · simp [sendFinally, ingestSilently_bubbles]
  · simp [sendFinally, ingestSilently_bubbles, serverIds_append, serverIds]
  · simp [sendFinally, ingestSilently_renderedIds]
  · simp [sendFinally, ingestSilently_lastMessageId]

theorem send_success_reconciles_silently_witness :
    jsTrim "help" ≠ "" ∧
    ((sendMessage initial "help" (PostReply.ok "ok")
          (HistoryReply.ok [⟨5, "user", "help"⟩, ⟨6, "bot", "ok"⟩])).bubbles =
        initial.bubbles ++
          [Bubble.localEcho "user" (jsTrim "help"), Bubble.localEcho "bot" "ok"] ∧
      serverIds (sendMessage initial "help" (PostReply.ok "ok")
          (HistoryReply.ok [⟨5, "user", "help"⟩, ⟨6, "bot", "ok"⟩])).bubbles =
        serverIds initial.bubbles ∧
      (sendMessage initial "help" (PostReply.ok "ok")
          (HistoryReply.ok [⟨5, "user", "help"⟩, ⟨6, "bot", "ok"⟩])).renderedIds =
        initial.renderedIds ∪
          (([⟨5, "user", "help"⟩, ⟨6, "bot", "ok"⟩] : List Message).map Message.id).toFinset ∧
      (sendMessage initial "help" (PostReply.ok "ok")
          (HistoryReply.ok [⟨5, "user", "help"⟩, ⟨6, "bot", "ok"⟩])).lastMessageId =
        (([⟨5, "user", "help"⟩, ⟨6, "bot", "ok"⟩] : List Message).map Message.id).foldl max
          initial.lastMessageId) :=
  ⟨by decide,
    send_success_reconciles_silently initial "help" "ok"
      [⟨5, "user", "help"⟩, ⟨6, "bot", "ok"⟩] (by decide)⟩

/-- Claim C7, as stated, fails: after `syncIds` alone has recorded id 7, that
id is in `renderedIds` and `renderServerMessage` has drawn no bubble for it. -/
theorem tracked_id_without_bubble :
    ¬ ∀ (calls : List Call) (i : Int), i ∈ (run initial calls).renderedIds →
        (serverIds (run initial calls).bubbles).count i = 1 := by
  intro h
  have h7 := h [Call.ingestSilently [⟨7, "user", "X"⟩]] 7 (by decide)
  revert h7
  decide

/-- Claim C7, amended: in every state reached from the initial state by calls
of the two loops in which every message handed to the rendering loop has a
role that is a class token, an id of `renderedIds` occurred in some batch and
has exactly one bubble drawn by `renderServerMessage` when the first batch
that contained it went through the rendering loop, and none when that batch
went through the loop of `syncIds`. -/
theorem tracked_id_bubble_count (calls : List Call) (i : Int)
    (hroles : calls.all Call.rolesOk = true)
    (hi : i ∈ (run initial calls).renderedIds) :
    i ∈ ingestedIds calls ∧
      (serverIds (run initial calls).bubbles).count i =
        if firstSeenRendered i calls = true then 1 else 0 := by
  constructor
  · rcases run_renderedIds_subset initial calls i hi with h | h
    · simp [initial] at h
    · exact h
  · rw [count_run_of_rolesOk initial calls i hroles]
    simp [initial, serverIds]

theorem tracked_id_bubble_count_witness :
    ([Call.ingestSilently [⟨7, "", "X"⟩],
        Call.ingest [⟨3, "bot", "a"⟩, ⟨7, "user", "X"⟩],
        Call.ingestSilently [⟨3, "bot", "a"⟩]].all Call.rolesOk = true ∧
      (3 : Int) ∈ (run initial [Call.ingestSilently [⟨7, "", "X"⟩],
        Call.ingest [⟨3, "bot", "a"⟩, ⟨7, "user", "X"⟩],
        Call.ingestSilently [⟨3, "bot", "a"⟩]]).renderedIds) ∧
    ((3 : Int) ∈ ingestedIds [Call.ingestSilently [⟨7, "", "X"⟩],
        Call.ingest [⟨3, "bot", "a"⟩, ⟨7, "user", "X"⟩],
        Call.ingestSilently [⟨3, "bot", "a"⟩]] ∧
      (serverIds (run initial [Call.ingestSilently [⟨7, "", "X"⟩],
        Call.ingest [⟨3, "bot", "a"⟩, ⟨7, "user", "X"⟩],
        Call.ingestSilently [⟨3, "bot", "a"⟩]]).bubbles).count 3 =
        if firstSeenRendered 3 [Call.ingestSilently [⟨7, "", "X"⟩],
          Call.ingest [⟨3, "bot", "a"⟩, ⟨7, "user", "X"⟩],
          Call.ingestSilently [⟨3, "bot", "a"⟩]] = true then 1 else 0) :=
  ⟨⟨by decide, by decide⟩,
    tracked_id_bubble_count [Call.ingestSilently [⟨7, "", "X"⟩],
      Call.ingest [⟨3, "bot", "a"⟩, ⟨7, "user", "X"⟩],
      Call.ingestSilently [⟨3, "bot", "a"⟩]] 3 (by decide) (by decide)⟩

/-- Claim C8 fails on the code: a poll that passed `if (pollPaused) return`
before a send started resumes while that send is in flight and `pollPaused`
is true, draws server bubbles and moves `renderedIds` and `lastMessageId`;
the exchange then ends with four bubbles. -/
theorem poll_ingests_during_send :
    ∃ σ σ1 σ2 : Page,
      runEvents Page.start [Event.domContentLoaded, Event.historyReply 0 (HistoryReply.ok []),
        Event.tick, Event.send "help"] = some σ ∧
      σ.pending = [Pending.poll, Pending.sendPost] ∧
      σ.sendInFlight = true ∧ σ.client.pollPaused = true ∧
      σ.client.lastMessageId = 0 ∧ σ.client.renderedIds = ∅ ∧
      σ.client.bubbles = [Bubble.localEcho "user" "help"] ∧
      step σ (Event.historyReply 0
        (HistoryReply.ok [⟨5, "user", "help"⟩, ⟨6, "bot", "ok"⟩])) = some σ1 ∧
      σ1.pending = [Pending.sendPost] ∧
      σ1.sendInFlight = true ∧ σ1.client.pollPaused = true ∧
      σ1.client.lastMessageId = 6 ∧ σ1.client.renderedIds = {5, 6} ∧
      σ1.client.bubbles = [Bubble.localEcho "user" "help",
        Bubble.server ⟨5, "user", "help"⟩, Bubble.server ⟨6, "bot", "ok"⟩] ∧
      runEvents σ1 [Event.postReply 0 (PostReply.ok "ok"),
        Event.historyReply 0 (HistoryReply.ok [])] = some σ2 ∧
      σ2.pending = [] ∧
      σ2.client.bubbles = [Bubble.localEcho "user" "help",
        Bubble.server ⟨5, "user", "help"⟩, Bubble.server ⟨6, "bot", "ok"⟩,
        Bubble.localEcho "bot" "ok"] := by
  refine ⟨_, _, _, rfl, ?_, ?_, ?_, ?_, ?_, ?_, rfl, ?_, ?_, ?_, ?_, ?_, ?_, rfl, ?_, ?_⟩ <;>
    decide

/-- Claim C9: a send whose text is non-empty after trimming and whose POST
fails (the fetch rejects, or the response is not a success) appends, after
the local user bubble, exactly one more bubble, local and of role bot;
issues the POST and no history fetch; keeps `renderedIds` and
`lastMessageId`; and ends with `pollPaused` false and both controls enabled. -/
theorem send_failure_restores_controls (s : Client) (text : String) (p : PostReply)
    (r : HistoryReply) (h : jsTrim text ≠ "")
    (hp : p = PostReply.networkError ∨ ∃ statusText body, p = PostReply.notOk statusText body) :
    (∃ errText, (sendMessage s text p r).bubbles =
        s.bubbles ++ [Bubble.localEcho "user" (jsTrim text), Bubble.localEcho "bot" errText]) ∧
      (sendMessage s text p r).requests = s.requests ++ [Request.postMessage (jsTrim text)] ∧
      (sendMessage s text p r).renderedIds = s.renderedIds ∧
      (sendMessage s text p r).lastMessageId = s.lastMessageId ∧
      (sendMessage s text p r).pollPaused = false ∧
      (sendMessage s text p r).inputDisabled = false ∧
      (sendMessage s text p r).sendDisabled = false := by
  rcases hp with rfl | ⟨statusText, body, rfl⟩
  · simp [sendMessage, sendStart, h, sendAfterPost, sendCatch, sendFinally, renderLocalMessage,
      removeWelcome_eq, hideTyping, showTyping, issue]
  · cases body <;>
      simp [sendMessage, sendStart, h, sendAfterPost, sendCatch, sendFinally, renderLocalMessage,
        removeWelcome_eq, hideTyping, showTyping, issue]

theorem send_failure_restores_controls_witness :
    (jsTrim " help " ≠ "" ∧
      (PostReply.notOk "Internal Server Error" (ErrBody.value (some "boom")) =
          PostReply.networkError ∨
        ∃ statusText body,
          PostReply.notOk "Internal Server Error" (ErrBody.value (some "boom")) =
            PostReply.notOk statusText body)) ∧
    ((∃ errText, (sendMessage initial " help "
          (PostReply.notOk "Internal Server Error" (ErrBody.value (some "boom")))
          (HistoryReply.ok [⟨5, "user", "help"⟩])).bubbles =
        initial.bubbles ++
          [Bubble.localEcho "user" (jsTrim " help "), Bubble.localEcho "bot" errText]) ∧
      (sendMessage initial " help "
          (PostReply.notOk "Internal Server Error" (ErrBody.value (some "boom")))
          (HistoryReply.ok [⟨5, "user", "help"⟩])).requests =
        initial.requests ++ [Request.postMessage (jsTrim " help ")] ∧
      (sendMessage initial " help "
          (PostReply.notOk "Internal Server Error" (ErrBody.value (some "boom")))
          (HistoryReply.ok [⟨5, "user", "help"⟩])).renderedIds = initial.renderedIds ∧
      (sendMessage initial " help "
          (PostReply.notOk "Internal Server Error" (ErrBody.value (some "boom")))
          (HistoryReply.ok [⟨5, "user", "help"⟩])).lastMessageId = initial.lastMessageId ∧
      (sendMessage initial " help "
          (PostReply.notOk "Internal Server Error" (ErrBody.value (some "boom")))
          (HistoryReply.ok [⟨5, "user", "help"⟩])).pollPaused = false ∧
      (sendMessage initial " help "
          (PostReply.notOk "Internal Server Error" (ErrBody.value (some "boom")))
          (HistoryReply.ok [⟨5, "user", "help"⟩])).inputDisabled = false ∧
      (sendMessage initial " help "
          (PostReply.notOk "Internal Server Error" (ErrBody.value (some "boom")))
          (HistoryReply.ok [⟨5, "user", "help"⟩])).sendDisabled = false) :=
  ⟨⟨by decide, Or.inr ⟨_, _, rfl⟩⟩,
    send_failure_restores_controls initial " help "
      (PostReply.notOk "Internal Server Error" (ErrBody.value (some "boom")))
      (HistoryReply.ok [⟨5, "user", "help"⟩]) (by decide) (Or.inr ⟨_, _, rfl⟩)⟩

/-- Claim C10: for a text that is empty after trimming, `sendMessage` returns
the client state it was given: no request is issued, no bubble is drawn, and
`renderedIds`, `lastMessageId`, `pollPaused`, the value of the input field and
the disabled state of both controls keep their values; the call is not left
suspended in the event loop either. -/
theorem blank_send_changes_nothing (s : Client) (σ : Page) (text : String) (p : PostReply)
    (r : HistoryReply) (h : jsTrim text = "") :
    sendMessage s text p r = s ∧ step σ (Event.send text) = some σ := by
  simp [sendMessage, step, sendStart, h]

theorem blank_send_changes_nothing_witness :
    jsTrim "   " = "" ∧
    (sendMessage (ingest initial [⟨1, "user", "hi"⟩]) "   " (PostReply.ok "ok")
          (HistoryReply.ok [⟨5, "user", "help"⟩]) =
        ingest initial [⟨1, "user", "hi"⟩] ∧
      step Page.start (Event.send "   ") = some Page.start) :=
  ⟨by decide,
    blank_send_changes_nothing (ingest initial [⟨1, "user", "hi"⟩]) Page.start "   "
      (PostReply.ok "ok") (HistoryReply.ok [⟨5, "user", "help"⟩]) (by decide)⟩

end ChatClient
